import Mathlib

/-!
Verification of the `Square` component of `react-chessboard`
(`src/chessboard/components/Square.tsx`), shallowly embedded in Lean 4.

Cells ("squares") are identified by file-rank strings such as "e4".
Pieces are strings such as "wP" or "bQ" (colour letter first).
JS style objects are modelled as association lists where a later binding
shadows an earlier one, matching the semantics of object spread
`\x7b...a, ...b\x7d`; JS property values are modelled by `StyleValue`
together with its JS truthiness predicate.
-/

namespace Chessboard

/-- A cell identity, e.g. "a1". -/
abbrev Sq := String

/-- A piece code, e.g. "wP" or "bQ". -/
abbrev Piece := String

/-- Board orientation, `BoardOrientation` in the source. -/
inductive Orientation
  | white
  | black
deriving DecidableEq, Repr

/-- A JS style property value: string or number (numbers as integers). -/
inductive StyleValue
  | str (s : String)
  | num (n : Int)
deriving DecidableEq, Repr

/-- JS truthiness of a style value: the empty string and 0 are falsy. -/
def StyleValue.truthy : StyleValue → Bool
  | .str s => s ≠ ""
  | .num n => n ≠ 0

/-- A JS style object: an association list of property bindings.  Object
spread is concatenation, and a later binding shadows an earlier one. -/
abbrev Style := List (String × StyleValue)

/-- Property lookup on a style object: the value of the LAST binding of the
key, matching JS object-spread semantics where later spreads win. -/
def getProp (s : Style) (k : String) : Option StyleValue :=
  (s.reverse.find? (fun p => p.1 = k)).map (·.2)

/-- Extensional equality of style objects: the same value at every key,
which is what object identity means for a rendered style. -/
def styleEq (a b : Style) : Prop :=
  ∀ k, getProp a k = getProp b k

/-- `\x7b...(c && s)\x7d`: a conditional spread contributes its bindings only
when the condition is true (spreading `false` contributes nothing). -/
def spreadIf (c : Bool) (s : Style) : Style :=
  if c then s else []

/-- The `borderRadius` helper of `Square.tsx` (lines 218-247): the
corner-rounding lookup.  It returns an empty style unless the board-level
custom style has a truthy `borderRadius`; otherwise it returns a single
orientation-dependent rounded-corner binding for each of the four corner
cells, and an empty style for every other cell. -/
def borderRadius (square : Sq) (boardOrientation : Orientation)
    (customBoardStyle : Option Style) : Style :=
  match customBoardStyle.bind (fun s => getProp s "borderRadius") with
  | none => []
  | some v =>
    if ¬ v.truthy then []
    else if square = "a1" then
      if boardOrientation = .white then [("borderBottomLeftRadius", v)]
      else [("borderTopRightRadius", v)]
    else if square = "a8" then
      if boardOrientation = .white then [("borderTopLeftRadius", v)]
      else [("borderBottomRightRadius", v)]
    else if square = "h1" then
      if boardOrientation = .white then [("borderBottomRightRadius", v)]
      else [("borderTopLeftRadius", v)]
    else if square = "h8" then
      if boardOrientation = .white then [("borderTopRightRadius", v)]
      else [("borderBottomLeftRadius", v)]
    else []

/-- The four corner cells of the board. -/
def cornerSquares : List Sq := ["a1", "a8", "h1", "h8"]

/-- The `defaultSquareStyle` object of `Square.tsx` (lines 100-110),
applied to the outer cell element: corner rounding, then the base colour
style, then (conditionally) the premove override, then (conditionally)
the drop-hover override, each layer spread over the previous one. -/
def defaultSquareStyle (square : Sq) (boardOrientation : Orientation)
    (customBoardStyle : Option Style) (squareColorIsBlack : Bool)
    (customDarkSquareStyle customLightSquareStyle : Style)
    (customPremoveDarkSquareStyle customPremoveLightSquareStyle : Style)
    (squareHasPremove : Bool) (isOver : Bool)
    (customDropSquareStyle : Style) : Style :=
  borderRadius square boardOrientation customBoardStyle
    ++ (if squareColorIsBlack then customDarkSquareStyle
        else customLightSquareStyle)
    ++ spreadIf squareHasPremove
        (if squareColorIsBlack then customPremoveDarkSquareStyle
         else customPremoveLightSquareStyle)
    ++ spreadIf isOver customDropSquareStyle

/-- The `center` constant of `Square.tsx` (lines 208-211). -/
def center : Style :=
  [("display", .str "flex"), ("justifyContent", .str "center")]

/-- The `size` helper of `Square.tsx` (lines 213-216): fixed square sizing
of one eighth of the board width per side. -/
def size (width : Int) : Style :=
  [("width", .num (width / 8)), ("height", .num (width / 8))]

/-- The style object applied to the inner content wrapper
(`Square.tsx` lines 182-186 and 195-199): sizing, centering, and the
per-cell custom override spread only when the cell has no premove
(`...(!squareHasPremove && customSquareStyles?.[square])`; an absent
per-cell entry contributes nothing). -/
def innerWrapperStyle (boardWidth : Int) (squareHasPremove : Bool)
    (customSquareStyle : Option Style) : Style :=
  size boardWidth ++ center
    ++ spreadIf (!squareHasPremove) (customSquareStyle.getD [])

/-- The drag payload of `handleDrop` (`\x7bpiece, square, id\x7d`). -/
structure DragItem where
  piece : Piece
  square : Sq
  id : Nat
deriving DecidableEq, Repr

/-- One call into the shared interaction context made by `handleDrop`.
`setPosition from to piece animate` records a call to
`handleSetPosition`; `animate = none` means the animate argument was
omitted at the call site. -/
inductive DropEffect
  | setPosition (fromSq toSq : Sq) (piece : Piece) (animate : Option Bool)
  | setPromoteFromSquare (s : Sq)
  | setPromoteToSquare (s : Sq)
  | setShowPromoteDialog (b : Bool)
deriving DecidableEq, Repr

/-- Whether an effect list commits a move (contains a `handleSetPosition`
call). -/
def commitsMove (l : List DropEffect) : Bool :=
  l.any fun e => match e with
    | .setPosition _ _ _ _ => true
    | _ => false

/-- The `handleDrop` function of `Square.tsx` (lines 75-91), as the list of
context calls it makes.  `onPromotionCheck` is the external
promotion-check collaborator; `item.piece[0] === "w"` is the first
character of the piece string. -/
def handleDrop (autoPromoteToQueen : Bool)
    (onPromotionCheck : Sq → Sq → Piece → Bool) (square : Sq)
    (item : DragItem) : List DropEffect :=
  if onPromotionCheck item.square square item.piece then
    if autoPromoteToQueen then
      [.setPosition item.square square
        (if item.piece.data.head? = some 'w' then "wQ" else "bQ") none]
    else
      [.setPromoteFromSquare item.square, .setPromoteToSquare square,
       .setShowPromoteDialog true]
  else
    [.setPosition item.square square item.piece (some true)]

/-- Viewport coordinates, the `Coords` type (`\x7bx, y\x7d`). -/
structure Coords where
  x : Int
  y : Int
deriving DecidableEq, Repr

/-- The shared geometry map, `square → coordinates`. -/
abbrev SquaresMap := Sq → Option Coords

/-- The body of the geometry-tracking effect (`Square.tsx` lines 93-98):
if the DOM node is mounted (`squareRef.current` non-null), measure it and
merge this cell's coordinates into the shared map
(`\x7b...oldSquares, [square]: \x7bx, y\x7d\x7d`); otherwise do nothing. -/
def geometryEffectBody (square : Sq) (node : Option Coords)
    (oldSquares : SquaresMap) : SquaresMap :=
  match node with
  | none => oldSquares
  | some c => fun s => if s = square then some c else oldSquares s

/-- The props a render of `Square` receives that are relevant to the
geometry effect: the two dependencies listed in its dependency array
(`[boardWidth, boardOrientation]`, line 98) plus a representative
unrelated prop (the per-cell custom style). -/
structure RenderProps where
  boardWidth : Int
  boardOrientation : Orientation
  customSquareStyle : Option Style
deriving DecidableEq

/-- The dependency array of the geometry effect (`Square.tsx` line 98):
`[boardWidth, boardOrientation]` and nothing else. -/
def effectDeps (p : RenderProps) : Int × Orientation :=
  (p.boardWidth, p.boardOrientation)

/-- React semantics of `useEffect` with a dependency array: the effect
runs on mount (no previous dependencies) and on a render whose
dependencies differ from the previous render's. -/
def effectRuns (prevDeps : Option (Int × Orientation))
    (p : RenderProps) : Bool :=
  match prevDeps with
  | none => true
  | some d => d ≠ effectDeps p

/-- One render step of the geometry tracker: given the previously seen
dependencies, the incoming props and the current DOM node, run the
effect when React would, and report the publications made (the square
and coordinates written to the map). -/
def renderStep (square : Sq) (prevDeps : Option (Int × Orientation))
    (p : RenderProps) (node : Option Coords) (m : SquaresMap) :
    SquaresMap × List (Sq × Coords) × Option (Int × Orientation) :=
  if effectRuns prevDeps p then
    match node with
    | none => (m, [], some (effectDeps p))
    | some c =>
      (geometryEffectBody square (some c) m, [(square, c)],
       some (effectDeps p))
  else (m, [], some (effectDeps p))

/-- An element returned by the touch hit-test, carrying the result of
`getAttribute("data-square")` (`none` models a null attribute). -/
structure TouchElement where
  dataSquare : Option String
deriving DecidableEq, Repr

/-- JS truthiness of a `getAttribute` result: null and "" are falsy. -/
def attrTruthy : Option String → Bool
  | none => false
  | some s => s ≠ ""

/-- The square resolved by the touch hit-test (`Square.tsx` lines
121-127): `elementsFromPoint` lists elements topmost first; `find` takes
the first whose `data-square` attribute is truthy, and its attribute is
read back. -/
def hitTestSquare (els : List TouchElement) : Option String :=
  (els.find? (fun el => attrTruthy el.dataSquare)).bind (·.dataSquare)

/-- The `onTouchMove` handler of `Square.tsx` (lines 118-132): resolve
the square under the touch point; if it is truthy and differs from the
locally recorded `lastSquareDraggedOver`, update the record and signal
`onDragOverSquare` for it.  Returns the new record and the list of
squares signalled. -/
def touchMoveStep (els : List TouchElement) (lastSquareDraggedOver : Option String) :
    Option String × List String :=
  match hitTestSquare els with
  | none => (lastSquareDraggedOver, [])
  | some sq =>
    if attrTruthy (some sq) ∧ some sq ≠ lastSquareDraggedOver then
      (some sq, [sq])
    else (lastSquareDraggedOver, [])

/-- The per-instance `lastSquareDraggedOver` records of a board of cell
instances, indexed by instance. -/
abbrev InstanceStates := Nat → Option String

/-- A touch-move event delivered to cell instance `i` of a board: only
that instance's local `lastSquareDraggedOver` record is read and
written. -/
def boardTouchMove (states : InstanceStates) (i : Nat)
    (els : List TouchElement) : InstanceStates × List String :=
  let r := touchMoveStep els (states i)
  (fun j => if j = i then r.1 else states j, r.2)

/-- A semantic gesture callback into the shared interaction context. -/
inductive GestureEvent
  | dragOverSquare (s : Sq)
  | mouseOverSquare (s : Sq)
  | mouseOutSquare (s : Sq)
  | rightClickDown (s : Sq)
  | rightClickUp (s : Sq)
  | drawNewArrow (fromSq toSq : Sq)
  | arrowDrawEnd (fromSq toSq : Sq)
  | squareClick (s : Sq)
  | arrowsCleared
deriving DecidableEq, Repr

/-- The `onMouseDown` handler (`Square.tsx` lines 158-160): a
secondary-button (`button === 2`) press signals `onRightClickDown` for
this cell. -/
def onMouseDownHandler (square : Sq) (button : Nat) : List GestureEvent :=
  if button = 2 then [.rightClickDown square] else []

/-- The `onMouseUp` handler (`Square.tsx` lines 161-167): on a
secondary-button release, if the context records a right-click-down
origin, signal `onArrowDrawEnd origin square`, then signal
`onRightClickUp square` regardless. -/
def onMouseUpHandler (currentRightClickDown : Option Sq) (square : Sq)
    (button : Nat) : List GestureEvent :=
  if button = 2 then
    (match currentRightClickDown with
     | some origin => [.arrowDrawEnd origin square]
     | none => []) ++ [.rightClickUp square]
  else []

/-- Modelled from the spec: the shared interaction context (the
`useChessboard` provider, not part of this source file) exposes "the
currently-recorded right-click-down origin cell" and a right-click-down
mutator that "record[s] this cell as the right-click-down origin"
(spec sections 4.3 and 6).  Other gesture callbacks leave the recorded
origin unchanged. -/
def applyCtxEvent (currentRightClickDown : Option Sq)
    (e : GestureEvent) : Option Sq :=
  match e with
  | .rightClickDown s => some s
  | _ => currentRightClickDown

/-- The recorded right-click-down origin after a list of gesture events. -/
def applyCtxEvents (currentRightClickDown : Option Sq)
    (es : List GestureEvent) : Option Sq :=
  es.foldl applyCtxEvent currentRightClickDown

/-- A DOM element standing for one cell's rendered node: its identity and
the identities of its strict descendants. -/
structure DomCell where
  id : Nat
  strictDescendants : List Nat
deriving DecidableEq, Repr

/-- DOM `Node.contains`: true for the node itself and for its
descendants (inclusive-descendant semantics). -/
def DomCell.containsNode (c : DomCell) (n : Nat) : Bool :=
  n = c.id ∨ n ∈ c.strictDescendants

/-- The `onMouseOut` handler (`Square.tsx` lines 149-157): if the event's
related target exists and is contained in this cell's node, do nothing;
otherwise signal `onMouseOutSquare` for this cell. -/
def onMouseOutHandler (cell : DomCell) (relatedTarget : Option Nat)
    (square : Sq) : List GestureEvent :=
  match relatedTarget with
  | some rt =>
    if cell.containsNode rt then [] else [.mouseOutSquare square]
  | none => [.mouseOutSquare square]

/-- The `onMouseOver` handler (`Square.tsx` lines 133-148): with the
secondary button held (`buttons === 2`) and a recorded right-click-down
origin, signal `drawNewArrow origin square`; then, unless the related
target exists and is contained in this cell's node, signal
`onMouseOverSquare` for this cell. -/
def onMouseOverHandler (cell : DomCell) (relatedTarget : Option Nat)
    (buttons : Nat) (currentRightClickDown : Option Sq)
    (square : Sq) : List GestureEvent :=
  (if buttons = 2 then
    match currentRightClickDown with
    | some origin => [.drawNewArrow origin square]
    | none => []
   else [])
    ++ (match relatedTarget with
        | some rt =>
          if cell.containsNode rt then [] else [.mouseOverSquare square]
        | none => [.mouseOverSquare square])

/-- C1: on a drop, if the promotion check reports promotion and
auto-promote is set, the move is committed immediately with the payload
colour's queen-equivalent (wQ for a white piece, bQ for a black piece);
if promotion is required and auto-promote is not set, the origin and
destination are recorded into the promotion-dialog state, the dialog is
signalled to open, and no move is committed; if promotion is not
required, the move is committed immediately with the original piece,
flagged as animated. -/
theorem handleDrop_spec (apq : Bool) (pc : Sq → Sq → Piece → Bool)
    (square : Sq) (item : DragItem) :
    (pc item.square square item.piece = true → apq = true →
      item.piece.data.head? = some 'w' →
      handleDrop apq pc square item =
        [.setPosition item.square square "wQ" none])
  ∧ (pc item.square square item.piece = true → apq = true →
      item.piece.data.head? = some 'b' →
      handleDrop apq pc square item =
        [.setPosition item.square square "bQ" none])
  ∧ (pc item.square square item.piece = true → apq = false →
      handleDrop apq pc square item =
        [.setPromoteFromSquare item.square, .setPromoteToSquare square,
         .setShowPromoteDialog true]
      ∧ commitsMove (handleDrop apq pc square item) = false)
  ∧ (pc item.square square item.piece = false →
      handleDrop apq pc square item =
        [.setPosition item.square square item.piece (some true)]) := by
  refine ⟨?_, ?_, ?_, ?_⟩
  · intro h1 h2 h3
    simp [handleDrop, h1, h2, h3]
  · intro h1 h2 h3
    simp [handleDrop, h1, h2, h3]
  · intro h1 h2
    simp [handleDrop, h1, h2, commitsMove]
  · intro h1
    simp [handleDrop, h1]

/-- C1 witness: the three branches at concrete drops. -/
theorem handleDrop_spec_witness :
    handleDrop true (fun _ _ _ => true) "e8" ⟨"wP", "e7", 0⟩ =
      [.setPosition "e7" "e8" "wQ" none]
  ∧ handleDrop true (fun _ _ _ => true) "e1" ⟨"bP", "e2", 0⟩ =
      [.setPosition "e2" "e1" "bQ" none]
  ∧ handleDrop false (fun _ _ _ => true) "e8" ⟨"wP", "e7", 0⟩ =
      [.setPromoteFromSquare "e7", .setPromoteToSquare "e8",
       .setShowPromoteDialog true]
  ∧ handleDrop true (fun _ _ _ => false) "e4" ⟨"wP", "e2", 0⟩ =
      [.setPosition "e2" "e4" "wP" (some true)] := by
  refine ⟨?_, ?_, ?_, ?_⟩
  · exact (handleDrop_spec true (fun _ _ _ => true) "e8" ⟨"wP", "e7", 0⟩).1
      rfl rfl rfl
  · exact (handleDrop_spec true (fun _ _ _ => true) "e1" ⟨"bP", "e2", 0⟩).2.1
      rfl rfl rfl
  · exact ((handleDrop_spec false (fun _ _ _ => true) "e8" ⟨"wP", "e7", 0⟩).2.2.1
      rfl rfl).1
  · exact (handleDrop_spec true (fun _ _ _ => false) "e4" ⟨"wP", "e2", 0⟩).2.2.2
      rfl

/-- C9: the auto-promote commit path omits the animate argument of
`handleSetPosition` (modelled as `none`), so the auto-promoted move is
not flagged as animated, unlike the non-promotion path, which passes the
animate flag as `true`. -/
theorem handleDrop_autoPromote_not_animated (apq : Bool)
    (pc : Sq → Sq → Piece → Bool) (square : Sq) (item : DragItem) :
    (pc item.square square item.piece = true → apq = true →
      ∃ p, handleDrop apq pc square item =
        [.setPosition item.square square p none])
  ∧ (pc item.square square item.piece = false →
      handleDrop apq pc square item =
        [.setPosition item.square square item.piece (some true)]) := by
  constructor
  · intro h1 h2
    refine ⟨if item.piece.data.head? = some 'w' then "wQ" else "bQ", ?_⟩
    simp [handleDrop, h1, h2]
  · intro h1
    simp [handleDrop, h1]

/-- C9 witness: the animate argument at concrete drops. -/
theorem handleDrop_autoPromote_not_animated_witness :
    (∃ p, handleDrop true (fun _ _ _ => true) "e8" ⟨"wP", "e7", 1⟩ =
      [.setPosition "e7" "e8" p none])
  ∧ handleDrop true (fun _ _ _ => false) "e4" ⟨"bN", "c2", 1⟩ =
      [.setPosition "c2" "e4" "bN" (some true)] := by
  constructor
  · exact (handleDrop_autoPromote_not_animated true (fun _ _ _ => true)
      "e8" ⟨"wP", "e7", 1⟩).1 rfl rfl
  · exact (handleDrop_autoPromote_not_animated true (fun _ _ _ => false)
      "e4" ⟨"bN", "c2", 1⟩).2 rfl

/-- C3 counterexample: with no board-level custom style at all, the
corner-rounding lookup returns the empty style even for the corner cell
a1, so the claim's unconditional "exactly one non-empty rounding style"
fails. -/
theorem borderRadius_corner_counterexample :
    borderRadius "a1" Orientation.white none = ([] : Style) := rfl

/-- C3 (amended): provided the board-level custom style supplies a truthy
`borderRadius` value, each of the four corner cells gets exactly one
rounding binding under either orientation, and the binding differs
between the two orientations; every non-corner cell gets the empty style
under both orientations (the latter holds unconditionally). -/
theorem borderRadius_spec (sq : Sq) (cbs : Option Style) :
    ((∃ v, cbs.bind (fun s => getProp s "borderRadius") = some v ∧
        v.truthy = true) →
      sq ∈ cornerSquares →
      (∀ o, (borderRadius sq o cbs).length = 1) ∧
      borderRadius sq Orientation.white cbs ≠
        borderRadius sq Orientation.black cbs)
  ∧ (sq ∉ cornerSquares → ∀ o, borderRadius sq o cbs = []) := by
  constructor
  · rintro ⟨v, hv, ht⟩ hmem
    simp only [cornerSquares, List.mem_cons, List.not_mem_nil,
      or_false] at hmem
    rcases hmem with h | h | h | h <;> subst h <;>
      refine ⟨fun o => ?_, ?_⟩ <;>
      first
        | (cases o <;> simp [borderRadius, hv, ht])
        | (simp [borderRadius, hv, ht])
  · intro hmem o
    simp only [cornerSquares, List.mem_cons, List.not_mem_nil,
      or_false, not_or] at hmem
    obtain ⟨h1, h2, h3, h4⟩ := hmem
    cases hcb : cbs.bind (fun s => getProp s "borderRadius") with
    | none => simp [borderRadius, hcb]
    | some v => simp [borderRadius, hcb, h1, h2, h3, h4]

/-- C3 witness: the amended statement at a concrete board style, corner
and non-corner cell. -/
theorem borderRadius_spec_witness :
    (∀ o, (borderRadius "a1" o
      (some [("borderRadius", StyleValue.num 4)])).length = 1)
  ∧ borderRadius "a1" Orientation.white
      (some [("borderRadius", StyleValue.num 4)]) ≠
    borderRadius "a1" Orientation.black
      (some [("borderRadius", StyleValue.num 4)])
  ∧ (∀ o, borderRadius "e4" o
      (some [("borderRadius", StyleValue.num 4)]) = []) := by
  have hc := (borderRadius_spec "a1"
      (some [("borderRadius", StyleValue.num 4)])).1
    ⟨StyleValue.num 4, rfl, rfl⟩ (by decide)
  have hn := (borderRadius_spec "e4"
      (some [("borderRadius", StyleValue.num 4)])).2 (by decide)
  exact ⟨hc.1, hc.2, hn⟩

/-- C8: when the board-level custom style supplies no truthy
`borderRadius` value (absent, or present but falsy), the corner-rounding
lookup returns the empty style for every cell and both orientations. -/
theorem borderRadius_no_truthy_radius (sq : Sq) (o : Orientation)
    (cbs : Option Style)
    (h : ∀ v, cbs.bind (fun s => getProp s "borderRadius") = some v →
      v.truthy = false) :
    borderRadius sq o cbs = [] := by
  cases hcb : cbs.bind (fun s => getProp s "borderRadius") with
  | none => simp [borderRadius, hcb]
  | some v => simp [borderRadius, hcb, h v hcb]

/-- C8 witness: a falsy (zero) board-level radius leaves the corner cell
a1 unrounded. -/
theorem borderRadius_no_truthy_radius_witness :
    borderRadius "a1" Orientation.white
      (some [("borderRadius", StyleValue.num 0)]) = [] := by
  refine borderRadius_no_truthy_radius "a1" Orientation.white
    (some [("borderRadius", StyleValue.num 0)]) ?_
  intro v hv
  simp [getProp] at hv
  simp [← hv, StyleValue.truthy]

/-- Lookup on a spread `\x7b...a, ...b\x7d`: a binding in the later object
shadows the earlier one. -/
theorem getProp_append (a b : Style) (k : String) :
    getProp (a ++ b) k =
      match getProp b k with
      | some v => some v
      | none => getProp a k := by
  unfold getProp
  rw [List.reverse_append, List.find?_append]
  cases hb : b.reverse.find? (fun p => p.1 = k) with
  | none => simp [hb]
  | some p => simp [hb]

/-- C2 counterexample: with a premove set, a base colour key absent from
the premove style persists in the rendered style, so the rendered style
does not equal the premove override layer: here the dark-square base
style carries a `border` binding, the premove dark style only a
`backgroundColor`, and the rendered style still answers for `border`. -/
theorem premove_replaces_base_counterexample :
    ¬ styleEq
      (defaultSquareStyle "e4" Orientation.white none true
        [("border", StyleValue.str "1px")] []
        [("backgroundColor", StyleValue.str "red")] [] true false [])
      [("backgroundColor", StyleValue.str "red")] := by
  intro h
  have hb := h "border"
  have h1 : getProp
      (defaultSquareStyle "e4" Orientation.white none true
        [("border", StyleValue.str "1px")] []
        [("backgroundColor", StyleValue.str "red")] [] true false [])
      "border" = some (StyleValue.str "1px") := rfl
  have h2 : getProp [("backgroundColor", StyleValue.str "red")] "border"
      = none := rfl
  rw [h1, h2] at hb
  exact Option.noConfusion hb

/-- C2 (amended): when the cell has a premove and no drag hovers it,
every key present in the colour-matching premove style takes its premove
value in the rendered style (the premove layer is shallow-merged over
the base colour layer, overriding shared keys but leaving base keys
absent from it in place), and the per-cell custom override on the inner
content wrapper is suppressed: the wrapper style is exactly sizing and
centering, independent of any per-cell custom style supplied. -/
theorem premove_style_spec (square : Sq) (o : Orientation)
    (cbs : Option Style) (squareColorIsBlack : Bool)
    (cd cl pd pl ds : Style) (boardWidth : Int)
    (css : Option Style) :
    (∀ k v,
      getProp (if squareColorIsBlack then pd else pl) k = some v →
      getProp (defaultSquareStyle square o cbs squareColorIsBlack
        cd cl pd pl true false ds) k = some v)
  ∧ innerWrapperStyle boardWidth true css = size boardWidth ++ center := by
  constructor
  · intro k v hk
    unfold defaultSquareStyle spreadIf
    simp only [if_true, if_false, Bool.false_eq_true, ite_false,
      ite_true, List.append_nil]
    rw [getProp_append, getProp_append, hk]
  · unfold innerWrapperStyle spreadIf
    simp

/-- C2 witness: at a concrete premove cell, the premove background wins
over the base background, and a supplied per-cell custom style leaves
the inner wrapper style unchanged. -/
theorem premove_style_spec_witness :
    getProp (defaultSquareStyle "e4" Orientation.white none true
      [("backgroundColor", StyleValue.str "green")] []
      [("backgroundColor", StyleValue.str "red")] [] true false [])
      "backgroundColor" = some (StyleValue.str "red")
  ∧ innerWrapperStyle 400 true
      (some [("outline", StyleValue.str "2px")]) = size 400 ++ center := by
  constructor
  · exact (premove_style_spec "e4" Orientation.white none true
      [("backgroundColor", StyleValue.str "green")] []
      [("backgroundColor", StyleValue.str "red")] [] [] 400
      (some [("outline", StyleValue.str "2px")])).1
      "backgroundColor" (StyleValue.str "red") rfl
  · exact (premove_style_spec "e4" Orientation.white none true
      [("backgroundColor", StyleValue.str "green")] []
      [("backgroundColor", StyleValue.str "red")] [] [] 400
      (some [("outline", StyleValue.str "2px")])).2

/-- C4: the geometry effect publishes this cell's coordinates into the
shared map, keyed by its identity and merging with the other entries, on
mount and on a change of board width or orientation; a render whose
dependencies (board width, orientation) are unchanged republishes
nothing even if other props changed, the dependency array ignores the
per-cell custom style entirely, and an unmounted DOM node makes the
effect skip silently, leaving the map unchanged. -/
theorem geometryTracker_spec (square : Sq) (p : RenderProps)
    (node : Option Coords) (m : SquaresMap)
    (prevDeps : Option (Int × Orientation)) :
    (prevDeps = none → ∀ c, node = some c →
      (renderStep square prevDeps p node m).2.1 = [(square, c)]
      ∧ (renderStep square prevDeps p node m).1 square = some c
      ∧ ∀ s, s ≠ square → (renderStep square prevDeps p node m).1 s = m s)
  ∧ (∀ d, prevDeps = some d → d ≠ effectDeps p → ∀ c, node = some c →
      (renderStep square prevDeps p node m).2.1 = [(square, c)]
      ∧ (renderStep square prevDeps p node m).1 square = some c
      ∧ ∀ s, s ≠ square → (renderStep square prevDeps p node m).1 s = m s)
  ∧ (prevDeps = some (effectDeps p) →
      (renderStep square prevDeps p node m).2.1 = []
      ∧ (renderStep square prevDeps p node m).1 = m)
  ∧ (∀ w o css css',
      effectDeps ⟨w, o, css⟩ = effectDeps ⟨w, o, css'⟩)
  ∧ (node = none →
      (renderStep square prevDeps p node m).2.1 = []
      ∧ (renderStep square prevDeps p node m).1 = m) := by
  refine ⟨?_, ?_, ?_, ?_, ?_⟩
  · intro hprev c hnode
    subst hprev; subst hnode
    refine ⟨rfl, ?_, ?_⟩
    · simp [renderStep, effectRuns, geometryEffectBody]
    · intro s hs
      simp [renderStep, effectRuns, geometryEffectBody, hs]
  · intro d hprev hd c hnode
    subst hprev; subst hnode
    refine ⟨?_, ?_, ?_⟩
    · simp [renderStep, effectRuns, hd]
    · simp [renderStep, effectRuns, hd, geometryEffectBody]
    · intro s hs
      simp [renderStep, effectRuns, hd, geometryEffectBody, hs]
  · intro hprev
    subst hprev
    constructor <;> simp [renderStep, effectRuns]
  · intro w o css css'
    rfl
  · intro hnode
    subst hnode
    cases prevDeps with
    | none => constructor <;> simp [renderStep, effectRuns]
    | some d =>
      by_cases hd : d = effectDeps p
      · subst hd
        constructor <;> simp [renderStep, effectRuns]
      · constructor <;> simp [renderStep, effectRuns, hd]

/-- C4 witness: a mount publication that merges, a width change that
republishes, a custom-style-only change that does not, and an unmounted
node that skips. -/
theorem geometryTracker_spec_witness :
    (renderStep "e4" none ⟨400, Orientation.white, none⟩
      (some ⟨10, 20⟩) (fun _ => none)).2.1 = [("e4", ⟨10, 20⟩)]
  ∧ (renderStep "e4" none ⟨400, Orientation.white, none⟩
      (some ⟨10, 20⟩) (fun _ => none)).1 "a1" = none
  ∧ (renderStep "e4" (some (480, Orientation.white))
      ⟨400, Orientation.white, none⟩ (some ⟨10, 20⟩)
      (fun _ => none)).2.1 = [("e4", ⟨10, 20⟩)]
  ∧ (renderStep "e4" (some (400, Orientation.white))
      ⟨400, Orientation.white, some [("outline", StyleValue.str "2px")]⟩
      (some ⟨10, 20⟩) (fun _ => none)).2.1 = []
  ∧ (renderStep "e4" none ⟨400, Orientation.white, none⟩ none
      (fun _ => none)).2.1 = [] := by
  refine ⟨?_, ?_, ?_, ?_, ?_⟩
  · exact ((geometryTracker_spec "e4" ⟨400, Orientation.white, none⟩
      (some ⟨10, 20⟩) (fun _ => none) none).1 rfl ⟨10, 20⟩ rfl).1
  · exact ((geometryTracker_spec "e4" ⟨400, Orientation.white, none⟩
      (some ⟨10, 20⟩) (fun _ => none) none).1 rfl ⟨10, 20⟩ rfl).2.2
      "a1" (by decide)
  · exact ((geometryTracker_spec "e4" ⟨400, Orientation.white, none⟩
      (some ⟨10, 20⟩) (fun _ => none)
      (some (480, Orientation.white))).2.1
      (480, Orientation.white) rfl (by decide) ⟨10, 20⟩ rfl).1
  · exact ((geometryTracker_spec "e4"
      ⟨400, Orientation.white, some [("outline", StyleValue.str "2px")]⟩
      (some ⟨10, 20⟩) (fun _ => none)
      (some (400, Orientation.white))).2.2.1 rfl).1
  · exact ((geometryTracker_spec "e4" ⟨400, Orientation.white, none⟩
      none (fun _ => none) none).2.2.2.2 rfl).1

/-- A square resolved by the hit-test is a truthy (non-empty) attribute
value, since `find` only accepts elements with a truthy `data-square`. -/
theorem hitTestSquare_truthy (els : List TouchElement) (sq : String)
    (h : hitTestSquare els = some sq) : attrTruthy (some sq) = true := by
  unfold hitTestSquare at h
  cases hf : els.find? (fun el => attrTruthy el.dataSquare) with
  | none => rw [hf] at h; exact Option.noConfusion h
  | some el =>
    rw [hf] at h
    have hp := List.find?_some hf
    have h' : el.dataSquare = some sq := h
    rw [h'] at hp
    exact hp

/-- Helper: a hit-test resolving to a square different from the local
record updates the record and signals exactly that square once. -/
theorem touchMoveStep_new (els : List TouchElement) (last : Option String)
    (sq : String) (h : hitTestSquare els = some sq)
    (hne : some sq ≠ last) :
    touchMoveStep els last = (some sq, [sq]) := by
  have ht := hitTestSquare_truthy els sq h
  unfold touchMoveStep
  rw [h]
  simp [ht, hne]

/-- Helper: a hit-test resolving to the recorded square signals nothing
and leaves the record unchanged. -/
theorem touchMoveStep_same (els : List TouchElement) (sq : String)
    (h : hitTestSquare els = some sq) :
    touchMoveStep els (some sq) = (some sq, []) := by
  unfold touchMoveStep
  rw [h]
  simp

/-- C5: the touch-move handler takes the topmost tagged element from the
hit-test; a resolved square differing from the recorded one updates the
record and signals exactly one drag-over; two successive events
resolving to the same square produce exactly one signal in total (none
when the square was already recorded); and a hit-test with no tagged
element signals nothing and leaves the record unchanged. -/
theorem touchMove_spec (els : List TouchElement) (last : Option String) :
    (∀ pre el post, els = pre ++ el :: post →
      (∀ e ∈ pre, attrTruthy e.dataSquare = false) →
      attrTruthy el.dataSquare = true →
      hitTestSquare els = el.dataSquare)
  ∧ (∀ sq, hitTestSquare els = some sq → some sq ≠ last →
      touchMoveStep els last = (some sq, [sq]))
  ∧ (∀ els' sq, hitTestSquare els = some sq →
      hitTestSquare els' = some sq →
      (touchMoveStep els last).2
        ++ (touchMoveStep els' (touchMoveStep els last).1).2
        = if some sq = last then [] else [sq])
  ∧ ((∀ e ∈ els, attrTruthy e.dataSquare = false) →
      touchMoveStep els last = (last, [])) := by
  refine ⟨?_, ?_, ?_, ?_⟩
  · intro pre el post hels hpre hel
    subst hels
    unfold hitTestSquare
    rw [List.find?_append]
    have hnone : pre.find? (fun el => attrTruthy el.dataSquare) = none :=
      List.find?_eq_none.mpr (fun e he => by simp [hpre e he])
    rw [hnone]
    simp [List.find?_cons, hel]
  · intro sq h hne
    exact touchMoveStep_new els last sq h hne
  · intro els' sq h h'
    by_cases hlast : some sq = last
    · subst hlast
      rw [touchMoveStep_same els sq h]
      rw [touchMoveStep_same els' sq h']
      simp
    · rw [touchMoveStep_new els last sq h hlast]
      rw [touchMoveStep_same els' sq h']
      simp [hlast]
  · intro hall
    unfold touchMoveStep
    have hnone : els.find? (fun el => attrTruthy el.dataSquare) = none :=
      List.find?_eq_none.mpr (fun e he => by simp [hall e he])
    unfold hitTestSquare
    rw [hnone]
    rfl

/-- C5 witness: concrete touch-move sequences over a two-element
hit-test stack. -/
theorem touchMove_spec_witness :
    hitTestSquare [⟨none⟩, ⟨some "d5"⟩, ⟨some "e4"⟩] = some "d5"
  ∧ touchMoveStep [⟨none⟩, ⟨some "d5"⟩, ⟨some "e4"⟩] none
      = (some "d5", ["d5"])
  ∧ (touchMoveStep [⟨none⟩, ⟨some "d5"⟩, ⟨some "e4"⟩] none).2
      ++ (touchMoveStep [⟨some "d5"⟩]
          (touchMoveStep [⟨none⟩, ⟨some "d5"⟩, ⟨some "e4"⟩] none).1).2
      = ["d5"]
  ∧ touchMoveStep [⟨none⟩, ⟨some ""⟩] (some "d5") = (some "d5", []) := by
  have h := touchMove_spec [⟨none⟩, ⟨some "d5"⟩, ⟨some "e4"⟩]
    (none : Option String)
  refine ⟨?_, ?_, ?_, ?_⟩
  · exact h.1 [⟨none⟩] ⟨some "d5"⟩ [⟨some "e4"⟩] rfl
      (by intro e he; simp at he; simp [he, attrTruthy]) (by decide)
  · exact h.2.1 "d5" (h.1 [⟨none⟩] ⟨some "d5"⟩ [⟨some "e4"⟩] rfl
      (by intro e he; simp at he; simp [he, attrTruthy]) (by decide))
      (by simp)
  · have hd5 : hitTestSquare [⟨none⟩, ⟨some "d5"⟩, ⟨some "e4"⟩]
        = some "d5" := h.1 [⟨none⟩] ⟨some "d5"⟩ [⟨some "e4"⟩] rfl
      (by intro e he; simp at he; simp [he, attrTruthy]) (by decide)
    have hd5' : hitTestSquare [⟨some "d5"⟩] = some "d5" := rfl
    have := h.2.2.1 [⟨some "d5"⟩] "d5" hd5 hd5'
    simpa using this
  · exact (touchMove_spec [⟨none⟩, ⟨some ""⟩] (some "d5")).2.2.2
      (by intro e he; simp at he
          rcases he with he | he <;> simp [he, attrTruthy])

/-- C10: the touch-move deduplication record is local to each cell
instance: handling an event at instance `i` leaves every other
instance's record untouched, so after instance `i` signals drag-over for
a square, a different instance `j` whose own record does not hold that
square signals drag-over for the same square again. -/
theorem touchDedup_local (states : InstanceStates) (i j : Nat)
    (hij : j ≠ i) (els1 els2 : List TouchElement) (sq : String)
    (h1 : hitTestSquare els1 = some sq)
    (h2 : hitTestSquare els2 = some sq)
    (hi : some sq ≠ states i) (hj : some sq ≠ states j) :
    (boardTouchMove states i els1).2 = [sq]
  ∧ (boardTouchMove states i els1).1 j = states j
  ∧ (boardTouchMove (boardTouchMove states i els1).1 j els2).2 = [sq] := by
  have hstep1 : touchMoveStep els1 (states i) = (some sq, [sq]) :=
    touchMoveStep_new els1 (states i) sq h1 hi
  refine ⟨?_, ?_, ?_⟩
  · simp [boardTouchMove, hstep1]
  · simp [boardTouchMove, hij]
  · have hkeep : (boardTouchMove states i els1).1 j = states j := by
      simp [boardTouchMove, hij]
    have hstep2 : touchMoveStep els2 (states j) = (some sq, [sq]) :=
      touchMoveStep_new els2 (states j) sq h2 hj
    simp [boardTouchMove, hij, hstep2]

/-- C10 witness: two instances both signal drag-over for the same square
in turn, each deduplicating only against its own record. -/
theorem touchDedup_local_witness :
    (boardTouchMove (fun _ => none) 0 [⟨some "d5"⟩]).2 = ["d5"]
  ∧ (boardTouchMove (fun _ => none) 0 [⟨some "d5"⟩]).1 1 = none
  ∧ (boardTouchMove (boardTouchMove (fun _ => none) 0 [⟨some "d5"⟩]).1
      1 [⟨some "d5"⟩]).2 = ["d5"] := by
  have h := touchDedup_local (fun _ => none) 0 1 (by decide)
    [⟨some "d5"⟩] [⟨some "d5"⟩] "d5" rfl rfl (by simp) (by simp)
  exact ⟨h.1, h.2.1, h.2.2⟩

/-- Helper: gesture events other than a right-click-down preserve the
recorded right-click-down origin. -/
theorem applyCtxEvents_no_down (c : Option Sq) (es : List GestureEvent)
    (h : ∀ s, GestureEvent.rightClickDown s ∉ es) :
    applyCtxEvents c es = c := by
  induction es generalizing c with
  | nil => rfl
  | cons e tl ih =>
    have he : applyCtxEvent c e = c := by
      cases e with
      | rightClickDown s =>
        exact absurd (List.mem_cons_self _ _) (h s)
      | _ => rfl
    have htl : ∀ s, GestureEvent.rightClickDown s ∉ tl := by
      intro s hs
      exact h s (List.mem_cons_of_mem _ hs)
    unfold applyCtxEvents at ih ⊢
    rw [List.foldl_cons, he]
    exact ih c htl

/-- C6: a secondary-button mouse-down on cell `a` signals the
right-click-down recording of `a`; after any intervening events that
contain no right-click-down, a secondary-button mouse-up on cell `b`
emits exactly `[arrow-finalize a b, right-click-up b]` (one finalize,
followed by the up); and a right-click-up is emitted on every
secondary-button mouse-up, origin recorded or not. -/
theorem rightClick_arrow_spec (a b : Sq) (c0 : Option Sq)
    (mid : List GestureEvent)
    (hmid : ∀ s, GestureEvent.rightClickDown s ∉ mid) :
    onMouseDownHandler a 2 = [.rightClickDown a]
  ∧ applyCtxEvents c0 (onMouseDownHandler a 2) = some a
  ∧ onMouseUpHandler
      (applyCtxEvents (applyCtxEvents c0 (onMouseDownHandler a 2)) mid)
      b 2
      = [.arrowDrawEnd a b, .rightClickUp b]
  ∧ (∀ c sq, GestureEvent.rightClickUp sq ∈ onMouseUpHandler c sq 2) := by
  have hdown : applyCtxEvents c0 (onMouseDownHandler a 2) = some a := rfl
  refine ⟨rfl, hdown, ?_, ?_⟩
  · rw [hdown, applyCtxEvents_no_down (some a) mid hmid]
    rfl
  · intro c sq
    cases c <;> simp [onMouseUpHandler]

/-- C6 witness: right-click-down on a1, a hover in between, right-click-up
on h8 finalizes exactly one arrow from a1 to h8. -/
theorem rightClick_arrow_spec_witness :
    onMouseDownHandler "a1" 2 = [.rightClickDown "a1"]
  ∧ onMouseUpHandler
      (applyCtxEvents (applyCtxEvents none (onMouseDownHandler "a1" 2))
        [.mouseOverSquare "c3"]) "h8" 2
      = [.arrowDrawEnd "a1" "h8", .rightClickUp "h8"]
  ∧ GestureEvent.rightClickUp "h8" ∈ onMouseUpHandler none "h8" 2 := by
  have h := rightClick_arrow_spec "a1" "h8" none [.mouseOverSquare "c3"]
    (by intro s hs; simp at hs)
  exact ⟨h.1, h.2.2.1, h.2.2.2 none "h8"⟩

/-- C7: a mouse-out signals hover-leave for the cell exactly when the
event's related target is not contained in the cell's node (absent, or
present and not an inclusive descendant, per DOM `Node.contains`); a
mouse-over signals hover-enter under exactly the same condition. -/
theorem hover_guard_spec (cell : DomCell) (rt : Option Nat) (square : Sq)
    (buttons : Nat) (currentRightClickDown : Option Sq) :
    (GestureEvent.mouseOutSquare square ∈ onMouseOutHandler cell rt square
      ↔ ∀ r, rt = some r → cell.containsNode r = false)
  ∧ (GestureEvent.mouseOverSquare square ∈
        onMouseOverHandler cell rt buttons currentRightClickDown square
      ↔ ∀ r, rt = some r → cell.containsNode r = false) := by
  constructor
  · cases rt with
    | none => simp [onMouseOutHandler]
    | some r =>
      by_cases hc : cell.containsNode r
      · simp [onMouseOutHandler, hc]
      · simp [onMouseOutHandler, hc]
  · cases rt with
    | none =>
      simp only [onMouseOverHandler]
      constructor
      · intro _ r hr
        exact Option.noConfusion hr
      · intro _
        cases buttons with
        | zero => simp
        | succ n =>
          by_cases hb : n + 1 = 2
          · cases currentRightClickDown <;> simp [hb]
          · simp [hb]
    | some r =>
      by_cases hc : cell.containsNode r
      · simp only [onMouseOverHandler, hc, if_true]
        constructor
        · intro hmem
          exfalso
          rcases List.mem_append.mp hmem with hmem | hmem
          · by_cases hb : buttons = 2
            · rw [if_pos hb] at hmem
              cases currentRightClickDown with
              | none => simp at hmem
              | some o => simp at hmem
            · rw [if_neg hb] at hmem
              simp at hmem
          · simp at hmem
        · intro hall
          have := hall r rfl
          rw [hc] at this
          exact Bool.noConfusion this
      · simp only [onMouseOverHandler, hc, if_false]
        constructor
        · intro _ r' hr'
          have hrr : r = r' := Option.some_inj.mp hr'
          subst hrr
          cases h : cell.containsNode r
          · rfl
          · exact absurd h hc
        · intro _
          exact List.mem_append.mpr (Or.inr (List.mem_singleton.mpr rfl))

/-- C7 witness: a mouse-out to a child produces no hover-leave, a
mouse-out to a sibling does, and a mouse-over from a sibling signals
hover-enter. -/
theorem hover_guard_spec_witness :
    GestureEvent.mouseOutSquare "e4" ∉
      onMouseOutHandler ⟨0, [1]⟩ (some 1) "e4"
  ∧ GestureEvent.mouseOutSquare "e4" ∈
      onMouseOutHandler ⟨0, [1]⟩ (some 2) "e4"
  ∧ GestureEvent.mouseOverSquare "e4" ∈
      onMouseOverHandler ⟨0, [1]⟩ (some 2) 0 none "e4" := by
  refine ⟨?_, ?_, ?_⟩
  · intro hmem
    have := (hover_guard_spec ⟨0, [1]⟩ (some 1) "e4" 0 none).1.mp hmem
      1 rfl
    simp [DomCell.containsNode] at this
  · exact (hover_guard_spec ⟨0, [1]⟩ (some 2) "e4" 0 none).1.mpr
      (by intro r hr; cases hr; decide)
  · exact (hover_guard_spec ⟨0, [1]⟩ (some 2) "e4" 0 none).2.mpr
      (by intro r hr; cases hr; decide)

end Chessboard
